import Mathlib

/-!
Shallow embedding of `src/contact_book.py`, a single-file contact manager:
a CSV store file (header `Name,Phone,Email` plus one row per contact), a
JSON interchange file, and an append-only log.  The file system is modeled
as an explicit state (`FS`); each Python function becomes a Lean function
on that state.  Python exceptions that the code does not catch are modeled
with `Except String` (constructor `.error`); the exact wording of Python's
own exception messages is abbreviated.  Timestamps in log lines are I/O
nondeterminism and are omitted: a log entry is the pair (level, message).
-/

set_option autoImplicit false

namespace ContactBook

/-- Python's `str.lower` on one character (ASCII range; non-ASCII case
folding is out of scope). -/
def pyCharLower (c : Char) : Char :=
  if 'A' ≤ c ∧ c ≤ 'Z' then Char.ofNat (c.toNat + 32) else c

/-- Python's `str.lower`. -/
def pyLower (s : String) : String := ⟨s.data.map pyCharLower⟩

/-- Python's whitespace test used by `str.strip()`. -/
def isPySpace (c : Char) : Bool :=
  c == ' ' || c == '\t' || c == '\n' || c == '\r' || c == '\x0b' || c == '\x0c'

/-- Python's `str.strip()`: drop leading and trailing whitespace. -/
def pyStrip (s : String) : String :=
  ⟨((s.data.dropWhile isPySpace).reverse.dropWhile isPySpace).reverse⟩

/-- Whether the first list is an initial segment of the second. -/
def startsWith : List Char → List Char → Bool
  | [], _ => true
  | _ :: _, [] => false
  | a :: as, b :: bs => a == b && startsWith as bs

/-- Python's substring test `needle in haystack` on the character lists. -/
def containsSub (needle : List Char) : List Char → Bool
  | [] => needle.isEmpty
  | c :: rest => startsWith needle (c :: rest) || containsSub needle rest

/-- `FIELDNAMES = ["Name", "Phone", "Email"]` from the source. -/
def FIELDNAMES : List String := ["Name", "Phone", "Email"]

/-- A contact as produced by `csv.DictReader`: a dict whose three keys map
to the row's cells.  A cell missing from a short row is `none`
(`DictReader`'s `restval`, Python `None`); a present cell is `some s`. -/
structure PyContact where
  name : Option String
  phone : Option String
  email : Option String
  deriving DecidableEq, Repr

/-- A parsed JSON document, as `json.load` returns it.  JSON numbers are
modeled as integers only (floats are out of scope); object fields keep
their textual order, and duplicate keys resolve to the last one, as in
Python's dict construction. -/
inductive JValue where
  | null
  | bool (b : Bool)
  | num (n : Int)
  | str (s : String)
  | arr (items : List JValue)
  | obj (fields : List (String × JValue))

/-- The file-system state: the CSV store (`none` when the file is absent,
otherwise the list of records, each record a list of cells — the layer
below this, CSV line/quote syntax, is handled by `renderCsv`), the JSON
interchange file (`none` when absent, otherwise its parsed value), and the
log file as a list of (level, message) lines. -/
structure FS where
  csv : Option (List (List String))
  json : Option JValue
  log : List (String × String)

mutual
/-- Python's `repr` of a JSON-parsed value (string escaping inside `repr`
of a `str` is not modeled). -/
def pyRepr : JValue → String
  | .null => "None"
  | .bool true => "True"
  | .bool false => "False"
  | .num n => toString n
  | .str s => "'" ++ s ++ "'"
  | .arr items => "[" ++ pyReprItems items ++ "]"
  | .obj fields => "\x7b" ++ pyReprFields fields ++ "\x7d"
def pyReprItems : List JValue → String
  | [] => ""
  | [v] => pyRepr v
  | v :: vs => pyRepr v ++ ", " ++ pyReprItems vs
def pyReprFields : List (String × JValue) → String
  | [] => ""
  | [(k, v)] => "'" ++ k ++ "': " ++ pyRepr v
  | (k, v) :: kvs => "'" ++ k ++ "': " ++ pyRepr v ++ ", " ++ pyReprFields kvs
end

/-- Python's `str()` of a JSON-parsed value: identity on strings,
`repr` otherwise. -/
def pyStr : JValue → String
  | .str s => s
  | v => pyRepr v

/-- Computations that may raise an uncaught Python exception. -/
abbrev Py (α : Type) := Except String α

/-- `c["Name"].lower()`: raises `AttributeError` when the cell is the
`None` filled in for a missing trailing field. -/
def lowerName (c : PyContact) : Py String :=
  match c.name with
  | some s => .ok (pyLower s)
  | none => .error "AttributeError: NoneType object has no attribute lower"

/-- A Python list comprehension `[c for c in cs if p c]` whose condition
may raise: conditions are evaluated left to right and the first exception
propagates. -/
def filterPy (p : PyContact → Py Bool) : List PyContact → Py (List PyContact)
  | [] => .ok []
  | c :: cs => do
    let b ← p c
    let rest ← filterPy p cs
    pure (if b then c :: rest else rest)

/-- `write_log(level, msg)`: append one line to the log file.  (The code
swallows I/O failures of the log write; I/O failure is not modeled.) -/
def write_log (fs : FS) (level msg : String) : FS :=
  { fs with log := fs.log ++ [(level, msg)] }

/-- `ensure_csv_exists()`: create the CSV with just the header row if the
file does not exist. -/
def ensure_csv_exists (fs : FS) : FS :=
  match fs.csv with
  | none => { fs with csv := some [FIELDNAMES] }
  | some _ => fs

/-- One record of a `csv.DictReader` whose fieldnames row is `FIELDNAMES`:
cell `i` goes to field `i`; missing trailing cells become `None`.  (Cells
beyond the third would go under `DictReader`'s `restkey`; the program
never reads them, and they are not represented.) -/
def dictRead (r : List String) : PyContact :=
  { name := r[0]?, phone := r[1]?, email := r[2]? }

/-- `csv.DictReader(f)` over the whole file: the first record is the
fieldnames row (always `FIELDNAMES` in files this program writes), empty
records (blank lines) are skipped, the rest become dicts. -/
def parseFile : List (List String) → List PyContact
  | [] => []
  | _header :: rows => (rows.filter (fun r => !r.isEmpty)).map dictRead

/-- `read_contacts()`: ensure the store exists, then parse every row. -/
def read_contacts (fs : FS) : FS × List PyContact :=
  let fs := ensure_csv_exists fs
  (fs, parseFile (fs.csv.getD []))

/-- The contact list `read_contacts` returns, without the state change. -/
def readAll (fs : FS) : List PyContact :=
  (read_contacts fs).2

/-- `csv.DictWriter.writerow` for one contact dict: field order is
`FIELDNAMES`; a `None` value is written as the empty cell. -/
def toRow (c : PyContact) : List String :=
  [c.name.getD "", c.phone.getD "", c.email.getD ""]

/-- `write_contacts(contacts)`: overwrite the CSV with the header row
followed by one row per contact, in the given order. -/
def write_contacts (fs : FS) (cs : List PyContact) : FS :=
  { fs with csv := some (FIELDNAMES :: cs.map toRow) }

/-- The CSV line/quote layer under the record model: `csv.writer` with the
default dialect quotes a cell containing a delimiter, quote or newline,
doubling embedded quotes, and terminates records with CRLF.  Equal record
lists therefore render to identical file bytes. -/
def renderField (s : String) : String :=
  if s.toList.any (fun ch => ch = ',' || ch = '"' || ch = '\n' || ch = '\r') then
    "\"" ++ s.replace "\"" "\"\"" ++ "\""
  else s

/-- Render one CSV record as its file line (CRLF-terminated). -/
def renderRow (r : List String) : String :=
  String.intercalate "," (r.map renderField) ++ "\r\n"

/-- Render a whole CSV file to its bytes (as a string). -/
def renderCsv (rows : List (List String)) : String :=
  String.join (rows.map renderRow)

/-- `add_contact()`: the three inputs are stripped; if any is empty the
operation aborts before touching any file.  Otherwise the new contact is
appended and the store rewritten; returns `true` on success. -/
def add_contact (fs : FS) (nameIn phoneIn emailIn : String) : FS × Bool :=
  let name := pyStrip nameIn
  let phone := pyStrip phoneIn
  let email := pyStrip emailIn
  if name = "" || phone = "" || email = "" then (fs, false)
  else
    let (fs, contacts) := read_contacts fs
    let contacts := contacts ++ [⟨some name, some phone, some email⟩]
    let fs := write_contacts fs contacts
    let fs := write_log fs "INFO" ("Added contact: " ++ name)
    (fs, true)

/-- `search_contact()`: the input is stripped and lowercased; keeps every
contact whose lowercased name contains the term as a substring.  Returns
the matches (read-only apart from `ensure_csv_exists`). -/
def search_contact (fs : FS) (input : String) : Py (FS × List PyContact) :=
  let term := pyLower (pyStrip input)
  let (fs, cs) := read_contacts fs
  do
    let found ← filterPy (fun c => do
      let nl ← lowerName c
      pure (containsSub term.data nl.data)) cs
    pure (fs, found)

/-- The two `if new_phone: / if new_email:` assignments of
`update_contact` on the matched dict: a non-empty stripped input replaces
the field, a blank one keeps the old value. -/
def updApply (np ne : String) (c : PyContact) : PyContact :=
  let c := if np ≠ "" then { c with phone := some np } else c
  if ne ≠ "" then { c with email := some ne } else c

/-- The loop body of `update_contact`: walk the list; at the first contact
whose lowercased name equals the lowercased target, replace phone/email
with the stripped new values when they are non-empty, and return the whole
list with that one element changed.  `none` when no contact matches. -/
def updateFirst (target np ne : String) : List PyContact → Py (Option (List PyContact))
  | [] => pure none
  | c :: rest => do
    let nl ← lowerName c
    if nl = pyLower target then
      pure (some (updApply np ne c :: rest))
    else
      match ← updateFirst target np ne rest with
      | some rest2 => pure (some (c :: rest2))
      | none => pure none

/-- `update_contact()`: first case-insensitive exact name match gets its
phone/email replaced (blank input keeps the old value), then the whole set
is rewritten and logged.  `false` when no contact matched (no write, no
log). -/
def update_contact (fs : FS) (nameIn newPhoneIn newEmailIn : String) : Py (FS × Bool) :=
  let name := pyStrip nameIn
  let (fs, contacts) := read_contacts fs
  do
    match ← updateFirst name (pyStrip newPhoneIn) (pyStrip newEmailIn) contacts with
    | some contacts2 =>
      let fs := write_contacts fs contacts2
      let fs := write_log fs "INFO" ("Updated contact: " ++ name)
      pure (fs, true)
    | none => pure (fs, false)

/-- `delete_contact()`: drop every case-insensitive exact name match; when
nothing was dropped, report not found without writing or logging. -/
def delete_contact (fs : FS) (nameIn : String) : Py (FS × Bool) :=
  let name := pyStrip nameIn
  let (fs, contacts) := read_contacts fs
  do
    let new_contacts ← filterPy (fun c => do
      let nl ← lowerName c
      pure (!(nl == pyLower name))) contacts
    if new_contacts.length = contacts.length then pure (fs, false)
    else
      let fs := write_contacts fs new_contacts
      let fs := write_log fs "INFO" ("Deleted contact: " ++ name)
      pure (fs, true)

/-- `json.dump` of one contact dict: a JSON object with the three keys in
field order; a `None` value becomes JSON `null`. -/
def contactToJson (c : PyContact) : JValue :=
  .obj [("Name", match c.name with | some s => .str s | none => .null),
        ("Phone", match c.phone with | some s => .str s | none => .null),
        ("Email", match c.email with | some s => .str s | none => .null)]

/-- `export_json()`: nothing is written when the store is empty; otherwise
the full contact list is dumped to the interchange file and logged. -/
def export_json (fs : FS) : FS :=
  let (fs, contacts) := read_contacts fs
  if contacts.isEmpty then fs
  else
    let fs := { fs with json := some (.arr (contacts.map contactToJson)) }
    write_log fs "INFO" ("Exported " ++ toString contacts.length ++ " contacts to JSON.")

/-- Python `c.get(key, "")` on a JSON object, then `str(...)`: the last
binding of the key wins; the default is the empty string. -/
def objGet (fields : List (String × JValue)) (key : String) : JValue :=
  match fields.reverse.find? (fun kv => kv.1 == key) with
  | some kv => kv.2
  | none => .str ""

/-- The per-element coercion of `import_json`:
`str(c.get(k, "")).strip()` for each of the three keys.  A non-object
element raises `AttributeError` (`c.get` does not exist), which the
surrounding `try` catches. -/
def coerceElem : JValue → Py PyContact
  | .obj fields =>
    .ok { name := some (pyStrip (pyStr (objGet fields "Name"))),
          phone := some (pyStrip (pyStr (objGet fields "Phone"))),
          email := some (pyStrip (pyStr (objGet fields "Email"))) }
  | _ => .error "AttributeError: object has no attribute get"

/-- The element loop of `import_json`, in order, stopping at the first
exception. -/
def coerceAll : List JValue → Py (List PyContact)
  | [] => .ok []
  | v :: vs => do
    let c ← coerceElem v
    let cs ← coerceAll vs
    pure (c :: cs)

/-- The body of `import_json`'s `try` block up to the store write: reject
a non-list document (`ValueError`, message as in the source), else coerce
every element. -/
def importClean : JValue → Py (List PyContact)
  | .arr items => coerceAll items
  | _ => .error "JSON must be a list of objects."

/-- `import_json()`: absent interchange file means an early return with no
log line; otherwise the `try` block parses and coerces, and either
replaces the whole store and logs INFO, or catches the exception and logs
one ERROR line without writing the store. -/
def import_json (fs : FS) : FS :=
  match fs.json with
  | none => fs
  | some v =>
    match importClean v with
    | .ok cleaned =>
      let fs := write_contacts fs cleaned
      write_log fs "INFO" ("Imported " ++ toString cleaned.length ++ " contacts from JSON.")
    | .error e => write_log fs "ERROR" ("Import JSON failed: " ++ e)

/-! Spec-side predicates, the store-file invariant, and shared lemmas. -/

/-- Case-insensitive whole-string name match, as update/delete use it:
the stored name, lowercased, equals the lowercased target. -/
def nameMatches (target : String) (c : PyContact) : Bool :=
  pyLower (c.name.getD "") == pyLower target

/-- Substring name match, as search uses it: the (already stripped and
lowercased) term occurs in the lowercased stored name. -/
def nameContains (term : String) (c : PyContact) : Bool :=
  containsSub term.data (pyLower (c.name.getD "")).data

/-- A contact none of whose cells is the `None` marker. -/
def allSome (c : PyContact) : Bool :=
  c.name.isSome && c.phone.isSome && c.email.isSome

/-- The store-file invariant: the file exists and consists of the header
row followed by data rows of exactly three cells each. -/
def Inv (fs : FS) : Prop :=
  ∃ rows, fs.csv = some (FIELDNAMES :: rows) ∧ ∀ r ∈ rows, r.length = 3

lemma ensure_of_some {fs : FS} {file : List (List String)}
    (h : fs.csv = some file) : ensure_csv_exists fs = fs := by
  unfold ensure_csv_exists
  rw [h]

lemma isEmpty_false_of_length3 {r : List String} (h : r.length = 3) :
    r.isEmpty = false := by
  cases r <;> simp_all

lemma parseFile_of_rows {rows : List (List String)}
    (h : ∀ r ∈ rows, r.length = 3) :
    parseFile (FIELDNAMES :: rows) = rows.map dictRead := by
  show (rows.filter (fun r => !r.isEmpty)).map dictRead = rows.map dictRead
  rw [List.filter_eq_self.mpr]
  intro r hr
  simp [isEmpty_false_of_length3 (h r hr)]

lemma read_contacts_of_inv {fs : FS} {rows : List (List String)}
    (hcsv : fs.csv = some (FIELDNAMES :: rows))
    (h3 : ∀ r ∈ rows, r.length = 3) :
    read_contacts fs = (fs, rows.map dictRead) := by
  unfold read_contacts
  rw [ensure_of_some hcsv]
  show (fs, parseFile (fs.csv.getD [])) = (fs, rows.map dictRead)
  rw [hcsv]
  simp [parseFile_of_rows h3]

lemma readAll_of_inv {fs : FS} {rows : List (List String)}
    (hcsv : fs.csv = some (FIELDNAMES :: rows))
    (h3 : ∀ r ∈ rows, r.length = 3) :
    readAll fs = rows.map dictRead := by
  unfold readAll
  rw [read_contacts_of_inv hcsv h3]

lemma exists_three_of_length3 {r : List String} (h : r.length = 3) :
    ∃ a b c, r = [a, b, c] := by
  match r, h with
  | [a, b, c], _ => exact ⟨a, b, c, rfl⟩

lemma allSome_dictRead {r : List String} (h : r.length = 3) :
    allSome (dictRead r) = true := by
  obtain ⟨a, b, c, rfl⟩ := exists_three_of_length3 h
  rfl

lemma toRow_dictRead {r : List String} (h : r.length = 3) :
    toRow (dictRead r) = r := by
  obtain ⟨a, b, c, rfl⟩ := exists_three_of_length3 h
  rfl

lemma dictRead_toRow {c : PyContact} (h : allSome c = true) :
    dictRead (toRow c) = c := by
  obtain ⟨n, p, e⟩ := c
  cases n <;> cases p <;> cases e <;> simp_all [allSome, dictRead, toRow]

lemma toRow_length (c : PyContact) : (toRow c).length = 3 := rfl

lemma inv_write_contacts (fs : FS) (cs : List PyContact) :
    Inv (write_contacts fs cs) := by
  refine ⟨cs.map toRow, rfl, ?_⟩
  intro r hr
  obtain ⟨c, _, rfl⟩ := List.mem_map.mp hr
  exact toRow_length c

lemma readAll_write_contacts {cs : List PyContact} (fs : FS)
    (h : ∀ c ∈ cs, allSome c = true) :
    readAll (write_contacts fs cs) = cs := by
  have h3 : ∀ r ∈ cs.map toRow, r.length = 3 := by
    intro r hr
    obtain ⟨c, _, rfl⟩ := List.mem_map.mp hr
    exact toRow_length c
  rw [readAll_of_inv rfl h3, List.map_map]
  calc cs.map (dictRead ∘ toRow) = cs.map id := by
        refine List.map_congr_left ?_
        intro c hc
        exact dictRead_toRow (h c hc)
    _ = cs := List.map_id cs

lemma filterPy_cons (p : PyContact → Py Bool) (c : PyContact)
    (cs : List PyContact) :
    filterPy p (c :: cs) =
      Except.bind (p c) (fun b => Except.bind (filterPy p cs)
        (fun rest => Except.ok (if b then c :: rest else rest))) := rfl

lemma filterPy_lower {q : String → Bool} : ∀ {cs : List PyContact},
    (∀ c ∈ cs, c.name.isSome = true) →
    filterPy (fun c => do
      let nl ← lowerName c
      pure (q nl)) cs =
      .ok (cs.filter (fun c => q (pyLower (c.name.getD "")))) := by
  intro cs
  induction cs with
  | nil => intro _; rfl
  | cons c rest ih =>
    intro h
    obtain ⟨s, hs⟩ := Option.isSome_iff_exists.mp (h c (by simp))
    have hrest := ih (fun x hx => h x (by simp [hx]))
    rw [filterPy_cons, hrest]
    have hc : (do
        let nl ← lowerName c
        pure (q nl) : Py Bool) = Except.ok (q (pyLower s)) := by
      unfold lowerName
      rw [hs]
      rfl
    rw [hc]
    show Except.ok (if q (pyLower s) then c :: rest.filter _ else rest.filter _) = _
    cases hq : q (pyLower s) <;> simp [List.filter_cons, hs, hq]

lemma lowerName_some {c : PyContact} {s : String} (h : c.name = some s) :
    lowerName c = .ok (pyLower s) := by
  unfold lowerName
  rw [h]

lemma isSome_of_allSome {c : PyContact} (h : allSome c = true) :
    c.name.isSome = true := by
  simp only [allSome, Bool.and_eq_true] at h
  exact h.1.1

lemma readAll_allSome {fs : FS} {rows : List (List String)}
    (hcsv : fs.csv = some (FIELDNAMES :: rows))
    (h3 : ∀ r ∈ rows, r.length = 3) :
    ∀ c ∈ readAll fs, allSome c = true := by
  rw [readAll_of_inv hcsv h3]
  intro c hc
  obtain ⟨r, hr, rfl⟩ := List.mem_map.mp hc
  exact allSome_dictRead (h3 r hr)

/-- The effect of the update loop, written without the exception monad:
the first match gets `updApply`, everything else is kept in place. -/
def updateFirstPure (target np ne : String) : List PyContact → Option (List PyContact)
  | [] => none
  | c :: rest =>
    if nameMatches target c then some (updApply np ne c :: rest)
    else
      match updateFirstPure target np ne rest with
      | some rest2 => some (c :: rest2)
      | none => none

lemma updateFirstPure_cons (target np ne : String) (c : PyContact)
    (rest : List PyContact) :
    updateFirstPure target np ne (c :: rest) =
      if nameMatches target c then some (updApply np ne c :: rest)
      else
        match updateFirstPure target np ne rest with
        | some rest2 => some (c :: rest2)
        | none => none := rfl

lemma updateFirst_cons (target np ne : String) (c : PyContact)
    (rest : List PyContact) :
    updateFirst target np ne (c :: rest) =
      Except.bind (lowerName c) (fun nl =>
        if nl = pyLower target then
          Except.ok (some (updApply np ne c :: rest))
        else
          Except.bind (updateFirst target np ne rest) (fun r =>
            match r with
            | some rest2 => Except.ok (some (c :: rest2))
            | none => Except.ok none)) := rfl

lemma updateFirst_ok (target np ne : String) : ∀ {cs : List PyContact},
    (∀ c ∈ cs, c.name.isSome = true) →
    updateFirst target np ne cs = .ok (updateFirstPure target np ne cs) := by
  intro cs
  induction cs with
  | nil => intro _; rfl
  | cons c rest ih =>
    intro h
    obtain ⟨s, hs⟩ := Option.isSome_iff_exists.mp (h c (by simp))
    have hrest := ih (fun x hx => h x (by simp [hx]))
    rw [updateFirst_cons, lowerName_some hs]
    show (if pyLower s = pyLower target then _ else _) = _
    have hm : nameMatches target c = (pyLower s == pyLower target) := by
      simp [nameMatches, hs]
    by_cases heq : pyLower s = pyLower target
    · rw [if_pos heq]
      rw [updateFirstPure_cons, hm, if_pos (by simp [heq])]
    · rw [if_neg heq]
      show Except.bind (updateFirst target np ne rest) _ = _
      rw [hrest]
      rw [updateFirstPure_cons, hm, if_neg (by simp [heq])]
      cases updateFirstPure target np ne rest <;> rfl

lemma updateFirstPure_split (target np ne : String) : ∀ (cs : List PyContact),
    (∃ c ∈ cs, nameMatches target c = true) →
    ∃ pre c suf, cs = pre ++ c :: suf ∧
      (∀ x ∈ pre, nameMatches target x = false) ∧
      nameMatches target c = true ∧
      updateFirstPure target np ne cs =
        some (pre ++ updApply np ne c :: suf) := by
  intro cs
  induction cs with
  | nil => rintro ⟨c, hc, -⟩; cases hc
  | cons c rest ih =>
    intro hex
    by_cases hm : nameMatches target c = true
    · refine ⟨[], c, rest, rfl, by simp, hm, ?_⟩
      rw [updateFirstPure_cons, if_pos hm]
      rfl
    · have hex2 : ∃ x ∈ rest, nameMatches target x = true := by
        obtain ⟨x, hx, hxm⟩ := hex
        rcases List.mem_cons.mp hx with rfl | hx2
        · exact absurd hxm hm
        · exact ⟨x, hx2, hxm⟩
      obtain ⟨pre, c0, suf, hsplit, hpre, hc0, heq⟩ := ih hex2
      refine ⟨c :: pre, c0, suf, by rw [hsplit]; rfl, ?_, hc0, ?_⟩
      · intro x hx
        rcases List.mem_cons.mp hx with rfl | hx2
        · exact Bool.eq_false_iff.mpr hm
        · exact hpre x hx2
      · rw [updateFirstPure_cons, if_neg hm, heq]
        simp

lemma updateFirstPure_none (target np ne : String) : ∀ {cs : List PyContact},
    (∀ c ∈ cs, nameMatches target c = false) →
    updateFirstPure target np ne cs = none := by
  intro cs
  induction cs with
  | nil => intro _; rfl
  | cons c rest ih =>
    intro h
    rw [updateFirstPure_cons, if_neg (by simp [h c (by simp)]),
      ih (fun x hx => h x (by simp [hx]))]

lemma readAll_of_some {fs : FS} {file : List (List String)}
    (h : fs.csv = some file) : readAll fs = parseFile file := by
  unfold readAll read_contacts
  rw [ensure_of_some h]
  show parseFile (fs.csv.getD []) = _
  rw [h]
  rfl

lemma readAll_write_log (fs : FS) (level msg : String) :
    readAll (write_log fs level msg) = readAll fs := by
  unfold readAll read_contacts write_log ensure_csv_exists
  obtain ⟨c, j, lg⟩ := fs
  cases c <;> rfl

lemma inv_write_log {fs : FS} (level msg : String) (h : Inv fs) :
    Inv (write_log fs level msg) := h

lemma importClean_arr (items : List JValue) :
    importClean (.arr items) = coerceAll items := rfl

lemma coerceAll_cons (v : JValue) (vs : List JValue) :
    coerceAll (v :: vs) =
      Except.bind (coerceElem v) (fun c =>
        Except.bind (coerceAll vs) (fun cs => Except.ok (c :: cs))) := rfl

lemma import_json_some {c0 : Option (List (List String))}
    {l0 : List (String × String)} {v : JValue} :
    import_json ⟨c0, some v, l0⟩ =
      match importClean v with
      | .ok cleaned =>
        write_log (write_contacts ⟨c0, some v, l0⟩ cleaned) "INFO"
          ("Imported " ++ toString cleaned.length ++ " contacts from JSON.")
      | .error e =>
        write_log ⟨c0, some v, l0⟩ "ERROR" ("Import JSON failed: " ++ e) := rfl

lemma coerceAll_map : ∀ {cs : List PyContact},
    (∀ c ∈ cs, coerceElem (contactToJson c) = .ok c) →
    coerceAll (cs.map contactToJson) = .ok cs := by
  intro cs
  induction cs with
  | nil => intro _; rfl
  | cons c rest ih =>
    intro h
    rw [List.map_cons, coerceAll_cons, h c (by simp),
      ih (fun x hx => h x (by simp [hx]))]
    rfl

/-! The claims. -/

/-- A sample well-formed store used to instantiate hypotheses of the
claim theorems on concrete inputs. -/
def fsEx : FS :=
  ⟨some [FIELDNAMES, ["Bob", "1", "b@x"], ["Ann", "2", "a@x"]], none, []⟩

/-- C2: for every input (name, phone, email) where at least one field is
empty after trimming, `add_contact` aborts: it returns the state
unchanged (so the store file bytes are identical and no log entry is
written) and reports failure. -/
theorem add_blank_field_aborts (fs : FS) (nameIn phoneIn emailIn : String)
    (h : pyStrip nameIn = "" ∨ pyStrip phoneIn = "" ∨ pyStrip emailIn = "") :
    add_contact fs nameIn phoneIn emailIn = (fs, false) ∧
    ((add_contact fs nameIn phoneIn emailIn).1.csv).map renderCsv =
      fs.csv.map renderCsv ∧
    (add_contact fs nameIn phoneIn emailIn).1.log = fs.log := by
  have habort : add_contact fs nameIn phoneIn emailIn = (fs, false) := by
    unfold add_contact
    rcases h with h | h | h <;> simp [h]
  exact ⟨habort, by rw [habort], by rw [habort]⟩

/-- Witness for C2 at a concrete blank-phone input. -/
theorem add_blank_field_aborts_witness :
    add_contact fsEx "Zed" "  " "z@x" = (fsEx, false) ∧
    ((add_contact fsEx "Zed" "  " "z@x").1.csv).map renderCsv =
      fsEx.csv.map renderCsv ∧
    (add_contact fsEx "Zed" "  " "z@x").1.log = fsEx.log :=
  add_blank_field_aborts fsEx "Zed" "  " "z@x" (Or.inr (Or.inl (by decide)))

/-- C7: importing an interchange file whose top-level value is not an
array fails: the store and interchange files are untouched and exactly
one ERROR line is appended to the log, with the `ValueError` message of
the source. -/
theorem import_non_array_fails (fs : FS) (v : JValue)
    (hjson : fs.json = some v)
    (hnot : ∀ items, v ≠ JValue.arr items) :
    (import_json fs).csv = fs.csv ∧
    (import_json fs).json = fs.json ∧
    (import_json fs).log = fs.log ++
      [("ERROR", "Import JSON failed: JSON must be a list of objects.")] := by
  have hclean : importClean v = .error "JSON must be a list of objects." := by
    cases v
    case arr items => exact absurd rfl (hnot items)
    all_goals rfl
  obtain ⟨c0, j0, l0⟩ := fs
  have hj : j0 = some v := hjson
  subst hj
  have himp : import_json ⟨c0, some v, l0⟩ =
      write_log ⟨c0, some v, l0⟩ "ERROR" ("Import JSON failed: " ++
        "JSON must be a list of objects.") := by
    rw [import_json_some, hclean]
  rw [himp]
  refine ⟨rfl, rfl, ?_⟩
  show l0 ++ [("ERROR", "Import JSON failed: " ++
    "JSON must be a list of objects.")] = _
  rw [show ("Import JSON failed: " ++ "JSON must be a list of objects.") =
    "Import JSON failed: JSON must be a list of objects." from by decide]

/-- Witness for C7 with a single JSON object as the document. -/
theorem import_non_array_fails_witness :
    (import_json ⟨fsEx.csv, some (.obj [("Name", .str "Bob")]), []⟩).csv =
      (⟨fsEx.csv, some (.obj [("Name", .str "Bob")]), []⟩ : FS).csv ∧
    (import_json ⟨fsEx.csv, some (.obj [("Name", .str "Bob")]), []⟩).json =
      (⟨fsEx.csv, some (.obj [("Name", .str "Bob")]), []⟩ : FS).json ∧
    (import_json ⟨fsEx.csv, some (.obj [("Name", .str "Bob")]), []⟩).log =
      ([] : List (String × String)) ++
      [("ERROR", "Import JSON failed: JSON must be a list of objects.")] :=
  import_non_array_fails ⟨fsEx.csv, some (.obj [("Name", .str "Bob")]), []⟩
    (.obj [("Name", .str "Bob")]) rfl
    (fun _ h => JValue.noConfusion h)

/-- The store used for the C8 counterexample: one data row with a single
cell, fewer than the three header columns. -/
def fsShortRow : FS := ⟨some [FIELDNAMES, ["a"]], none, []⟩

/-- C8 counterexample: on a row with missing trailing fields, `readAll`
fills the absent fields with the `None` marker, not with the empty text
string as the claim states. -/
theorem short_row_not_empty_text :
    readAll fsShortRow = [⟨some "a", none, none⟩] ∧
    (⟨some "a", none, none⟩ : PyContact) ≠ ⟨some "a", some "", some ""⟩ :=
  ⟨rfl, by decide⟩

/-- C8 amended: for every store file row with fewer columns than the
header, `readAll` returns a contact whose present fields hold the row's
cells and whose absent fields are the `None` marker (`Option.none`), not
the empty text string. -/
theorem short_row_fields_are_none (fs : FS) (rows : List (List String))
    (r : List String) (hcsv : fs.csv = some (FIELDNAMES :: rows))
    (hr : r ∈ rows) (hne : r ≠ []) :
    ∃ c ∈ readAll fs, c.name = r[0]? ∧ c.phone = r[1]? ∧ c.email = r[2]? ∧
      (r.length ≤ 1 → c.phone = none) ∧ (r.length ≤ 2 → c.email = none) := by
  refine ⟨dictRead r, ?_, rfl, rfl, rfl, ?_, ?_⟩
  · rw [readAll_of_some hcsv]
    show dictRead r ∈ (rows.filter (fun x => !x.isEmpty)).map dictRead
    refine List.mem_map.mpr ⟨r, List.mem_filter.mpr ⟨hr, ?_⟩, rfl⟩
    cases r with
    | nil => exact absurd rfl hne
    | cons a as => rfl
  · intro h1
    exact List.getElem?_eq_none h1
  · intro h2
    exact List.getElem?_eq_none h2

/-- Witness for C8 amended at the concrete one-cell row. -/
theorem short_row_fields_are_none_witness :
    ∃ c ∈ readAll fsShortRow, c.name = ["a"][0]? ∧ c.phone = ["a"][1]? ∧
      c.email = ["a"][2]? ∧ (["a"].length ≤ 1 → c.phone = none) ∧
      (["a"].length ≤ 2 → c.email = none) :=
  short_row_fields_are_none fsShortRow [["a"]] ["a"] rfl (by decide)
    (by decide)

/-- C9: importing a top-level empty JSON array succeeds: the store is
rewritten to just the header (every existing contact erased), one INFO
line reporting 0 imported contacts is logged, and no error is reported —
while `export_json` on the resulting empty store refuses to write the
interchange file. -/
theorem import_empty_array_succeeds (csv0 : Option (List (List String)))
    (log0 : List (String × String)) :
    import_json ⟨csv0, some (.arr []), log0⟩ =
      ⟨some [FIELDNAMES], some (.arr []),
        log0 ++ [("INFO", "Imported 0 contacts from JSON.")]⟩ ∧
    readAll (import_json ⟨csv0, some (.arr []), log0⟩) = [] ∧
    ∀ (j : Option JValue) (log1 : List (String × String)),
      export_json ⟨some [FIELDNAMES], j, log1⟩ = ⟨some [FIELDNAMES], j, log1⟩ := by
  refine ⟨rfl, rfl, fun j log1 => rfl⟩

lemma containsSub_nil (l : List Char) : containsSub [] l = true := by
  cases l <;> rfl

lemma pyBind_ok {α β : Type} (a : α) (f : α → Py β) :
    Except.bind (Except.ok a) f = f a := rfl

/-- C3: for every store state satisfying the store-file invariant and
every input with all three fields non-blank after stripping,
`add_contact` succeeds and the store afterwards is the previous contact
sequence, unchanged and in order, with exactly the new contact (stripped
field values) appended at the end; one INFO line is logged. -/
theorem add_appends_contact (fs : FS) (rows : List (List String))
    (nameIn phoneIn emailIn : String)
    (hcsv : fs.csv = some (FIELDNAMES :: rows))
    (h3 : ∀ r ∈ rows, r.length = 3)
    (hn : pyStrip nameIn ≠ "") (hp : pyStrip phoneIn ≠ "")
    (he : pyStrip emailIn ≠ "") :
    ∃ fs2, add_contact fs nameIn phoneIn emailIn = (fs2, true) ∧
      readAll fs2 = readAll fs ++
        [⟨some (pyStrip nameIn), some (pyStrip phoneIn),
          some (pyStrip emailIn)⟩] ∧
      (readAll fs2).length = (readAll fs).length + 1 ∧
      fs2.log = fs.log ++ [("INFO", "Added contact: " ++ pyStrip nameIn)] ∧
      fs2.json = fs.json := by
  have hread := read_contacts_of_inv hcsv h3
  have hRA : readAll fs = rows.map dictRead := readAll_of_inv hcsv h3
  have hall := readAll_allSome hcsv h3
  have hAS : ∀ c ∈ rows.map dictRead ++
      [(⟨some (pyStrip nameIn), some (pyStrip phoneIn),
        some (pyStrip emailIn)⟩ : PyContact)], allSome c = true := by
    intro c hc
    rcases List.mem_append.mp hc with hc2 | hc2
    · exact hall c (by rw [hRA]; exact hc2)
    · rcases List.mem_singleton.mp hc2 with rfl
      rfl
  refine ⟨write_log (write_contacts fs (rows.map dictRead ++
    [⟨some (pyStrip nameIn), some (pyStrip phoneIn),
      some (pyStrip emailIn)⟩])) "INFO"
    ("Added contact: " ++ pyStrip nameIn), ?_, ?_, ?_, rfl, rfl⟩
  · unfold add_contact
    rw [if_neg (by simp [hn, hp, he]), hread]
  · rw [readAll_write_log, readAll_write_contacts fs hAS, hRA]
  · rw [readAll_write_log, readAll_write_contacts fs hAS, hRA,
      List.length_append]
    rfl

/-- Witness for C3: adding to the sample store. -/
theorem add_appends_contact_witness :
    ∃ fs2, add_contact fsEx " Carl " "3" "c@x" = (fs2, true) ∧
      readAll fs2 = readAll fsEx ++
        [⟨some (pyStrip " Carl "), some (pyStrip "3"),
          some (pyStrip "c@x")⟩] ∧
      (readAll fs2).length = (readAll fsEx).length + 1 ∧
      fs2.log = fsEx.log ++
        [("INFO", "Added contact: " ++ pyStrip " Carl ")] ∧
      fs2.json = fsEx.json :=
  add_appends_contact fsEx [["Bob", "1", "b@x"], ["Ann", "2", "a@x"]]
    " Carl " "3" "c@x" rfl (by decide) (by decide) (by decide) (by decide)

/-- C4: on every store state satisfying the store-file invariant,
`search_contact` returns exactly the contacts whose lowercased name
contains the stripped, lowercased term as a substring, in file order, and
a blank term returns all contacts. -/
theorem search_returns_substring_matches (fs : FS)
    (rows : List (List String)) (input : String)
    (hcsv : fs.csv = some (FIELDNAMES :: rows))
    (h3 : ∀ r ∈ rows, r.length = 3) :
    search_contact fs input =
      .ok (fs, (readAll fs).filter (nameContains (pyLower (pyStrip input)))) ∧
    (pyStrip input = "" →
      (readAll fs).filter (nameContains (pyLower (pyStrip input))) =
        readAll fs) := by
  have hread := read_contacts_of_inv hcsv h3
  have hRA : readAll fs = rows.map dictRead := readAll_of_inv hcsv h3
  have hall := readAll_allSome hcsv h3
  have hnames : ∀ c ∈ rows.map dictRead, c.name.isSome = true := by
    intro c hc
    exact isSome_of_allSome (hall c (by rw [hRA]; exact hc))
  constructor
  · unfold search_contact
    rw [hread]
    show Except.bind (filterPy _ (rows.map dictRead)) _ = _
    rw [filterPy_lower hnames]
    rw [hRA]
    rfl
  · intro hblank
    rw [hblank]
    refine List.filter_eq_self.mpr ?_
    intro c _
    show containsSub (pyLower "").data _ = true
    exact containsSub_nil _

/-- Witness for C4: searching the sample store for "bo". -/
theorem search_returns_substring_matches_witness :
    (search_contact fsEx " Bo " =
      .ok (fsEx, (readAll fsEx).filter
        (nameContains (pyLower (pyStrip " Bo ")))) ∧
    (pyStrip " Bo " = "" →
      (readAll fsEx).filter (nameContains (pyLower (pyStrip " Bo "))) =
        readAll fsEx)) ∧
    (readAll fsEx).filter (nameContains (pyLower (pyStrip " Bo "))) =
      [⟨some "Bob", some "1", some "b@x"⟩] :=
  ⟨search_returns_substring_matches fsEx
    [["Bob", "1", "b@x"], ["Ann", "2", "a@x"]] " Bo " rfl (by decide),
   by decide⟩

/-- C6: on every store state satisfying the store-file invariant,
`delete_contact` removes every contact whose name equals the stripped
target case-insensitively, keeping the remaining contacts in their
relative order; when nothing matches it returns the state unchanged (no
write, no log line). -/
theorem delete_removes_all_matches (fs : FS) (rows : List (List String))
    (nameIn : String) (hcsv : fs.csv = some (FIELDNAMES :: rows))
    (h3 : ∀ r ∈ rows, r.length = 3) :
    ((∀ c ∈ readAll fs, nameMatches (pyStrip nameIn) c = false) →
      delete_contact fs nameIn = .ok (fs, false)) ∧
    ((∃ c ∈ readAll fs, nameMatches (pyStrip nameIn) c = true) →
      ∃ fs2, delete_contact fs nameIn = .ok (fs2, true) ∧
        readAll fs2 = (readAll fs).filter
          (fun c => !(nameMatches (pyStrip nameIn) c)) ∧
        fs2.log = fs.log ++
          [("INFO", "Deleted contact: " ++ pyStrip nameIn)] ∧
        fs2.json = fs.json) := by
  have hread := read_contacts_of_inv hcsv h3
  have hRA : readAll fs = rows.map dictRead := readAll_of_inv hcsv h3
  have hall := readAll_allSome hcsv h3
  have hnames : ∀ c ∈ rows.map dictRead, c.name.isSome = true := by
    intro c hc
    exact isSome_of_allSome (hall c (by rw [hRA]; exact hc))
  have hfil : filterPy (fun c => do
      let nl ← lowerName c
      pure (!(nl == pyLower (pyStrip nameIn)))) (rows.map dictRead) =
      .ok ((rows.map dictRead).filter
        (fun c => !(nameMatches (pyStrip nameIn) c))) :=
    filterPy_lower hnames
  constructor
  · intro hnone
    have hkeep : (rows.map dictRead).filter
        (fun c => !(nameMatches (pyStrip nameIn) c)) = rows.map dictRead := by
      refine List.filter_eq_self.mpr ?_
      intro c hc
      rw [hnone c (by rw [hRA]; exact hc)]
      rfl
    unfold delete_contact
    rw [hread]
    show Except.bind (filterPy _ (rows.map dictRead)) _ = _
    rw [hfil, hkeep]
    simp only [pyBind_ok]
    rfl
  · intro hex
    have hlt : ((rows.map dictRead).filter
        (fun c => !(nameMatches (pyStrip nameIn) c))).length <
        (rows.map dictRead).length := by
      refine List.length_filter_lt_length_iff_exists.mpr ?_
      obtain ⟨c, hc, hcm⟩ := hex
      exact ⟨c, by rw [hRA] at hc; exact hc, by simp [hcm]⟩
    refine ⟨write_log (write_contacts fs ((rows.map dictRead).filter
      (fun c => !(nameMatches (pyStrip nameIn) c)))) "INFO"
      ("Deleted contact: " ++ pyStrip nameIn), ?_, ?_, rfl, rfl⟩
    · unfold delete_contact
      rw [hread]
      show Except.bind (filterPy _ (rows.map dictRead)) _ = _
      rw [hfil]
      simp only [pyBind_ok]
      rw [if_neg (Nat.ne_of_lt hlt)]
      rfl
    · rw [readAll_write_log, readAll_write_contacts, hRA]
      intro c hc
      exact hall c (by rw [hRA]; exact (List.mem_filter.mp hc).1)

/-- Witness for C6: deleting "bob" (two case variants would match one
entry here) from the sample store, and deleting an absent name. -/
theorem delete_removes_all_matches_witness :
    (((∀ c ∈ readAll fsEx, nameMatches (pyStrip "BOB ") c = false) →
      delete_contact fsEx "BOB " = .ok (fsEx, false)) ∧
    ((∃ c ∈ readAll fsEx, nameMatches (pyStrip "BOB ") c = true) →
      ∃ fs2, delete_contact fsEx "BOB " = .ok (fs2, true) ∧
        readAll fs2 = (readAll fsEx).filter
          (fun c => !(nameMatches (pyStrip "BOB ") c)) ∧
        fs2.log = fsEx.log ++
          [("INFO", "Deleted contact: " ++ pyStrip "BOB ")] ∧
        fs2.json = fsEx.json)) ∧
    (∃ c ∈ readAll fsEx, nameMatches (pyStrip "BOB ") c = true) :=
  ⟨delete_removes_all_matches fsEx
    [["Bob", "1", "b@x"], ["Ann", "2", "a@x"]] "BOB " rfl (by decide),
   ⟨⟨some "Bob", some "1", some "b@x"⟩, by decide, by decide⟩⟩

/-- C5: on every store state satisfying the store-file invariant, when at
least one contact matches the stripped target name case-insensitively,
`update_contact` with a blank new phone and a non-blank new email changes
only the email of the first match (name and phone untouched) and leaves
every contact before and after it, and their order, untouched. -/
theorem update_changes_only_first_match_email (fs : FS)
    (rows : List (List String)) (nameIn newPhoneIn newEmailIn : String)
    (hcsv : fs.csv = some (FIELDNAMES :: rows))
    (h3 : ∀ r ∈ rows, r.length = 3)
    (hnp : pyStrip newPhoneIn = "") (hne : pyStrip newEmailIn ≠ "")
    (hex : ∃ c ∈ readAll fs, nameMatches (pyStrip nameIn) c = true) :
    ∃ pre c suf fs2, readAll fs = pre ++ c :: suf ∧
      (∀ x ∈ pre, nameMatches (pyStrip nameIn) x = false) ∧
      nameMatches (pyStrip nameIn) c = true ∧
      update_contact fs nameIn newPhoneIn newEmailIn = .ok (fs2, true) ∧
      readAll fs2 =
        pre ++ { c with email := some (pyStrip newEmailIn) } :: suf ∧
      fs2.log = fs.log ++
        [("INFO", "Updated contact: " ++ pyStrip nameIn)] ∧
      fs2.json = fs.json := by
  have hread := read_contacts_of_inv hcsv h3
  have hRA : readAll fs = rows.map dictRead := readAll_of_inv hcsv h3
  have hall := readAll_allSome hcsv h3
  have hcsAll : ∀ x ∈ rows.map dictRead, allSome x = true := by
    intro x hx
    exact hall x (by rw [hRA]; exact hx)
  have hnames : ∀ c ∈ rows.map dictRead, c.name.isSome = true :=
    fun c hc => isSome_of_allSome (hcsAll c hc)
  have hex2 : ∃ c ∈ rows.map dictRead,
      nameMatches (pyStrip nameIn) c = true := by
    rw [← hRA]
    exact hex
  obtain ⟨pre, c, suf, hsplit, hpre, hc, hupd⟩ :=
    updateFirstPure_split (pyStrip nameIn) (pyStrip newPhoneIn)
      (pyStrip newEmailIn) (rows.map dictRead) hex2
  have hupdApp : updApply (pyStrip newPhoneIn) (pyStrip newEmailIn) c =
      { c with email := some (pyStrip newEmailIn) } := by
    unfold updApply
    rw [hnp]
    simp [hne]
  rw [hupdApp] at hupd
  have hcin : allSome c = true := hcsAll c (by rw [hsplit]; simp)
  have hAS : ∀ x ∈ pre ++ { c with email := some (pyStrip newEmailIn) } :: suf,
      allSome x = true := by
    intro x hx
    rcases List.mem_append.mp hx with hx2 | hx2
    · exact hcsAll x (by rw [hsplit]; exact List.mem_append_left _ hx2)
    · rcases List.mem_cons.mp hx2 with rfl | hx3
      · simp only [allSome, Bool.and_eq_true] at hcin ⊢
        exact ⟨⟨hcin.1.1, hcin.1.2⟩, rfl⟩
      · have hx4 : x ∈ pre ++ c :: suf :=
          List.mem_append_right _ (List.mem_cons_of_mem _ hx3)
        exact hcsAll x (by rw [hsplit]; exact hx4)
  refine ⟨pre, c, suf,
    write_log (write_contacts fs
      (pre ++ { c with email := some (pyStrip newEmailIn) } :: suf)) "INFO"
      ("Updated contact: " ++ pyStrip nameIn),
    by rw [hRA, hsplit], hpre, hc, ?_, ?_, rfl, rfl⟩
  · unfold update_contact
    rw [hread]
    show Except.bind (updateFirst _ _ _ (rows.map dictRead)) _ = _
    rw [updateFirst_ok _ _ _ hnames, hupd]
    rfl
  · rw [readAll_write_log, readAll_write_contacts fs hAS]

/-- Witness for C5: updating the email of "BOB" (matching "Bob") in the
sample store with a blank new phone. -/
theorem update_changes_only_first_match_email_witness :
    ∃ pre c suf fs2, readAll fsEx = pre ++ c :: suf ∧
      (∀ x ∈ pre, nameMatches (pyStrip "BOB") x = false) ∧
      nameMatches (pyStrip "BOB") c = true ∧
      update_contact fsEx "BOB" " " "new@x" = .ok (fs2, true) ∧
      readAll fs2 = pre ++ { c with email := some (pyStrip "new@x") } :: suf ∧
      fs2.log = fsEx.log ++ [("INFO", "Updated contact: " ++ pyStrip "BOB")] ∧
      fs2.json = fsEx.json :=
  update_changes_only_first_match_email fsEx
    [["Bob", "1", "b@x"], ["Ann", "2", "a@x"]] "BOB" " " "new@x" rfl
    (by decide) (by decide) (by decide)
    ⟨⟨some "Bob", some "1", some "b@x"⟩, by decide, by decide⟩

/-- C10: after store creation the file is exactly the header; on every
invariant-satisfying state the file is exactly the header followed by one
row per contact of `readAll`, in order; and every mutating operation
(add, update, delete, import) preserves the invariant, because each goes
through the single `write_contacts` primitive. -/
theorem store_file_invariant :
    (∀ (j : Option JValue) (l : List (String × String)),
      ensure_csv_exists ⟨none, j, l⟩ = ⟨some [FIELDNAMES], j, l⟩) ∧
    (∀ fs : FS, Inv fs →
      fs.csv = some (FIELDNAMES :: (readAll fs).map toRow)) ∧
    (∀ (fs : FS) (n p e : String), Inv fs → Inv (add_contact fs n p e).1) ∧
    (∀ (fs : FS) (t np ne : String), Inv fs →
      ∃ r, update_contact fs t np ne = .ok r ∧ Inv r.1) ∧
    (∀ (fs : FS) (t : String), Inv fs →
      ∃ r, delete_contact fs t = .ok r ∧ Inv r.1) ∧
    (∀ fs : FS, Inv fs → Inv (import_json fs)) := by
  refine ⟨fun j l => rfl, ?_, ?_, ?_, ?_, ?_⟩
  · rintro fs ⟨rows, hcsv, h3⟩
    rw [readAll_of_inv hcsv h3, List.map_map, hcsv]
    have hrows : rows.map (toRow ∘ dictRead) = rows := by
      refine (List.map_congr_left ?_).trans (List.map_id rows)
      intro r hr
      exact toRow_dictRead (h3 r hr)
    rw [hrows]
  · rintro fs n p e ⟨rows, hcsv, h3⟩
    unfold add_contact
    cases hb : (decide (pyStrip n = "") || decide (pyStrip p = "") ||
        decide (pyStrip e = "")) with
    | true =>
      rw [if_pos hb]
      exact ⟨rows, hcsv, h3⟩
    | false =>
      rw [if_neg (by simp [hb]), read_contacts_of_inv hcsv h3]
      exact inv_write_log _ _ (inv_write_contacts fs _)
  · rintro fs t np ne ⟨rows, hcsv, h3⟩
    have hnames : ∀ c ∈ rows.map dictRead, c.name.isSome = true := by
      intro c hc
      obtain ⟨r, hr, rfl⟩ := List.mem_map.mp hc
      exact isSome_of_allSome (allSome_dictRead (h3 r hr))
    unfold update_contact
    rw [read_contacts_of_inv hcsv h3]
    show ∃ r, Except.bind (updateFirst _ _ _ (rows.map dictRead)) _ =
      .ok r ∧ Inv r.1
    rw [updateFirst_ok _ _ _ hnames]
    cases hu : updateFirstPure (pyStrip t) (pyStrip np) (pyStrip ne)
      (rows.map dictRead) with
    | none => exact ⟨(fs, false), rfl, ⟨rows, hcsv, h3⟩⟩
    | some cs2 =>
      exact ⟨(write_log (write_contacts fs cs2) "INFO"
        ("Updated contact: " ++ pyStrip t), true), rfl,
        inv_write_log _ _ (inv_write_contacts fs cs2)⟩
  · rintro fs t ⟨rows, hcsv, h3⟩
    have hnames : ∀ c ∈ rows.map dictRead, c.name.isSome = true := by
      intro c hc
      obtain ⟨r, hr, rfl⟩ := List.mem_map.mp hc
      exact isSome_of_allSome (allSome_dictRead (h3 r hr))
    unfold delete_contact
    rw [read_contacts_of_inv hcsv h3]
    show ∃ r, Except.bind (filterPy _ (rows.map dictRead)) _ = .ok r ∧ Inv r.1
    rw [filterPy_lower hnames]
    simp only [pyBind_ok]
    by_cases hlen : ((rows.map dictRead).filter
        (fun c => !(pyLower (c.name.getD "") == pyLower (pyStrip t)))).length =
        (rows.map dictRead).length
    · refine ⟨(fs, false), ?_, ⟨rows, hcsv, h3⟩⟩
      rw [if_pos hlen]
      rfl
    · refine ⟨(write_log (write_contacts fs ((rows.map dictRead).filter
        (fun c => !(pyLower (c.name.getD "") == pyLower (pyStrip t))))) "INFO"
        ("Deleted contact: " ++ pyStrip t), true), ?_,
        inv_write_log _ _ (inv_write_contacts fs _)⟩
      rw [if_neg hlen]
      rfl
  · rintro fs ⟨rows, hcsv, h3⟩
    obtain ⟨c0, j0, l0⟩ := fs
    cases j0 with
    | none => exact ⟨rows, hcsv, h3⟩
    | some v =>
      rw [import_json_some]
      cases hclean : importClean v with
      | ok cleaned => exact inv_write_log _ _ (inv_write_contacts _ _)
      | error e => exact inv_write_log _ _ ⟨rows, hcsv, h3⟩

/-- Witness for C10: each conjunct instantiated on the sample store. -/
theorem store_file_invariant_witness :
    ensure_csv_exists ⟨none, none, []⟩ = ⟨some [FIELDNAMES], none, []⟩ ∧
    fsEx.csv = some (FIELDNAMES :: (readAll fsEx).map toRow) ∧
    Inv (add_contact fsEx "Zed" "9" "z@x").1 ∧
    (∃ r, update_contact fsEx "bob" "7" "" = .ok r ∧ Inv r.1) ∧
    (∃ r, delete_contact fsEx "ann" = .ok r ∧ Inv r.1) ∧
    Inv (import_json fsEx) :=
  have hInv : Inv fsEx :=
    ⟨[["Bob", "1", "b@x"], ["Ann", "2", "a@x"]], rfl, by decide⟩
  ⟨store_file_invariant.1 none [],
   store_file_invariant.2.1 fsEx hInv,
   store_file_invariant.2.2.1 fsEx "Zed" "9" "z@x" hInv,
   store_file_invariant.2.2.2.1 fsEx "bob" "7" "" hInv,
   store_file_invariant.2.2.2.2.1 fsEx "ann" hInv,
   store_file_invariant.2.2.2.2.2 fsEx hInv⟩

/-- The store used for the C1 counterexample: every field is non-blank,
but the name carries a trailing space. -/
def fsRound : FS := ⟨some [FIELDNAMES, ["a ", "1", "x"]], none, []⟩

/-- C1 counterexample: a store whose fields are all non-blank for which
export followed by import does not reproduce the store: import strips the
trailing space from the name "a ". -/
theorem export_import_not_roundtrip :
    readAll fsRound = [⟨some "a ", some "1", some "x"⟩] ∧
    pyStrip "a " ≠ "" ∧ pyStrip "1" ≠ "" ∧ pyStrip "x" ≠ "" ∧
    readAll (import_json (export_json fsRound)) =
      [⟨some "a", some "1", some "x"⟩] ∧
    readAll (import_json (export_json fsRound)) ≠ readAll fsRound := by
  exact ⟨rfl, by decide, by decide, by decide, rfl, by decide⟩

/-- C1 amended: for every store state satisfying the store-file
invariant whose contact set is non-empty and whose fields are all
non-blank and free of surrounding whitespace, export followed
immediately by import reproduces exactly the same (name, phone, email)
sequence in the same order. -/
theorem export_import_roundtrip_of_stripped (fs : FS)
    (rows : List (List String))
    (hcsv : fs.csv = some (FIELDNAMES :: rows))
    (h3 : ∀ r ∈ rows, r.length = 3)
    (hne : readAll fs ≠ [])
    (hfields : ∀ c ∈ readAll fs,
      pyStrip (c.name.getD "") = c.name.getD "" ∧ c.name.getD "" ≠ "" ∧
      pyStrip (c.phone.getD "") = c.phone.getD "" ∧ c.phone.getD "" ≠ "" ∧
      pyStrip (c.email.getD "") = c.email.getD "" ∧ c.email.getD "" ≠ "") :
    readAll (import_json (export_json fs)) = readAll fs := by
  have hread := read_contacts_of_inv hcsv h3
  have hRA : readAll fs = rows.map dictRead := readAll_of_inv hcsv h3
  have hall := readAll_allSome hcsv h3
  have hcsAll : ∀ x ∈ rows.map dictRead, allSome x = true := by
    intro x hx
    exact hall x (by rw [hRA]; exact hx)
  obtain ⟨c0, j0, l0⟩ := fs
  have hcoerce : ∀ c ∈ rows.map dictRead,
      coerceElem (contactToJson c) = .ok c := by
    intro c hc
    obtain ⟨n, p, e⟩ := c
    have hAS := hcsAll ⟨n, p, e⟩ hc
    simp only [allSome, Bool.and_eq_true, Option.isSome_iff_exists] at hAS
    obtain ⟨⟨⟨n2, rfl⟩, p2, rfl⟩, e2, rfl⟩ := hAS
    have hf := hfields ⟨some n2, some p2, some e2⟩ (by rw [hRA]; exact hc)
    show Except.ok (⟨some (pyStrip n2), some (pyStrip p2),
      some (pyStrip e2)⟩ : PyContact) = _
    rw [show pyStrip n2 = n2 from hf.1, show pyStrip p2 = p2 from hf.2.2.1,
      show pyStrip e2 = e2 from hf.2.2.2.2.1]
  have hcsne : rows.map dictRead ≠ [] := by
    rw [← hRA]
    exact hne
  have hexp : export_json ⟨c0, j0, l0⟩ =
      write_log ⟨c0, some (.arr ((rows.map dictRead).map contactToJson)), l0⟩
        "INFO" ("Exported " ++ toString (rows.map dictRead).length ++
          " contacts to JSON.") := by
    unfold export_json
    rw [hread]
    show (if (rows.map dictRead).isEmpty then _ else _) = _
    rw [if_neg (by simp [List.isEmpty_iff, hcsne])]
  rw [hexp]
  show readAll (import_json ⟨c0,
    some (.arr ((rows.map dictRead).map contactToJson)), _⟩) = _
  rw [import_json_some, importClean_arr, coerceAll_map hcoerce]
  show readAll (write_log (write_contacts _ (rows.map dictRead)) "INFO" _) = _
  rw [readAll_write_log, readAll_write_contacts _ hcsAll, hRA]

/-- Witness for C1 amended: round-tripping the sample store. -/
theorem export_import_roundtrip_of_stripped_witness :
    readAll (import_json (export_json fsEx)) = readAll fsEx :=
  export_import_roundtrip_of_stripped fsEx
    [["Bob", "1", "b@x"], ["Ann", "2", "a@x"]] rfl (by decide) (by decide)
    (by decide)

end ContactBook
